import Mathlib

set_option maxHeartbeats 1000000
set_option linter.unusedVariables false

/-!
Verification of the autonomous-loop and request-correlation core of the
ai_code_manager repository.

The definitions below are a shallow embedding of the relevant source code:

- namespace `AutonomousAgent` embeds `client/src/lib/autonomousAgent.ts`
  (the `AutonomousAgent` class: `start`, `pause`, `stop`,
  `executeIteration`, `updateStatus` and the error auto-recovery timer);
- namespace `CursorAIService` embeds the WebSocket correlation phase of
  `CursorAIService.sendPrompt` / `runTests` / `updateCode` in
  `client/src/lib/aiPreviewAnalysisService.ts`;
- namespace `AILearningEngine` embeds the `AILearningEngine` class of the
  same file (`recordPrompt`, `recordSuccess`, `extractKeywords`,
  `getContextKey`, `getSuggestions`).

JavaScript numbers, dates and timer handles are modelled as `Nat`,
JavaScript strings as `String`, nullable values as `Option`.
-/

namespace AutonomousAgent

/-- Status enum of `AgentState.status` in autonomousAgent.ts. -/
inductive Status where
  | idle
  | running
  | paused
  | error
deriving DecidableEq

/-- The `improvements` record of `AgentState`. -/
structure Improvements where
  codeImprovements : Nat
  uiImprovements : Nat
  testsFixed : Nat
  errorsFixed : Nat
deriving DecidableEq

/-- The `enabledFeatures` record of `AutonomousAgentOptions`. -/
structure EnabledFeatures where
  codeAnalysis : Bool
  previewAnalysis : Bool
  testExecution : Bool
  errorDetection : Bool
deriving DecidableEq

/-- `AutonomousAgentOptions` (interval in milliseconds, maxIterations). -/
structure Options where
  enabledFeatures : EnabledFeatures
  interval : Nat
  maxIterations : Nat
deriving DecidableEq

/-- Constructor defaults of the `AutonomousAgent` class (interval 10000 ms,
maxIterations 5, all features enabled). -/
def defaultOptions : Options :=
  ⟨⟨true, true, true, true⟩, 10000, 5⟩

/-- The `AgentState` record of autonomousAgent.ts together with the private
`intervalId` field of the class (the repeating-timer handle, `null` when no
interval timer is armed). `lastRun` is a timestamp in the model. -/
structure State where
  status : Status
  currentIteration : Nat
  lastRun : Option Nat
  lastError : Option String
  improvements : Improvements
  intervalId : Option Nat
deriving DecidableEq

/-- The state built by the `AutonomousAgent` constructor. -/
def initialState : State :=
  ⟨.idle, 0, none, none, ⟨0, 0, 0, 0⟩, none⟩

/-- `updateStatus` of autonomousAgent.ts: sets `state.status` (the
`onStatusChange` callback has no effect on the state). It does not touch
`lastError`. -/
def updateStatus (st : Status) (s : State) : State :=
  { s with status := st }

/-- `pause()` of autonomousAgent.ts: early return unless running; clears the
interval timer and transitions to `paused`. -/
def pause (s : State) : State :=
  if s.status ≠ .running then s
  else updateStatus .paused { s with intervalId := none }

/-- `stop()` of autonomousAgent.ts: clears the interval timer (if any) and
transitions to `idle` unconditionally. -/
def stop (s : State) : State :=
  updateStatus .idle { s with intervalId := none }

/-- Improvement-counter increments performed by one successfully completed
tick: `analyzePreview` increments `uiImprovements` only when the
preview-analysis feature is enabled and the forwarding to the editor
succeeded (abstracted as the environment bit `uiOk`); the stubbed
`runTests` and `analyzeCode` sub-steps increment `testsFixed` and
`codeImprovements` unconditionally when their feature is enabled.
`errorsFixed` is never incremented anywhere in the source. -/
def tickImprovements (opts : Options) (uiOk : Bool) (im : Improvements) : Improvements :=
  { im with
    uiImprovements := im.uiImprovements + (if opts.enabledFeatures.previewAnalysis && uiOk then 1 else 0)
    testsFixed := im.testsFixed + (if opts.enabledFeatures.testExecution then 1 else 0)
    codeImprovements := im.codeImprovements + (if opts.enabledFeatures.codeAnalysis then 1 else 0) }

/-- `executeIteration()` of autonomousAgent.ts, one tick of the loop.
`err = none` means no exception escaped the tick body; `err = some m` means
an exception with message `m` escaped (the three sub-steps catch their own
errors, so such an exception can only come from a registered callback; the
model places the throw before the improvement increments). The guard
`currentIteration >= maxIterations` calls `pause()` and skips the work.
On a throw the catch block sets `lastError` and `updateStatus(error)`; the
30-second recovery timer it arms is modelled by `autoRecover` below. -/
def executeIteration (opts : Options) (err : Option String) (uiOk : Bool) (now : Nat)
    (s : State) : State :=
  if s.currentIteration ≥ opts.maxIterations then pause s
  else
    let s1 : State := { s with currentIteration := s.currentIteration + 1, lastRun := some now }
    match err with
    | none => { s1 with improvements := tickImprovements opts uiOk s1.improvements }
    | some m => updateStatus .error { s1 with lastError := some m }

/-- The state-reset block inside `start()` (lines 94-101): resets
`currentIteration` and the four improvement counters, nothing else. -/
def startReset (s : State) : State :=
  { s with currentIteration := 0, improvements := ⟨0, 0, 0, 0⟩ }

/-- `start()` of autonomousAgent.ts: early return if already running;
`updateStatus(running)`, reset, immediately execute one iteration, then arm
the repeating interval timer with a fresh handle. The immediate iteration
is modelled to completion (its asynchronous tail cannot be interleaved with
anything in a straight-line run); the timer handle is assigned afterwards,
exactly as line 105 runs after the synchronous prefix of line 104. -/
def start (opts : Options) (err : Option String) (uiOk : Bool) (now : Nat) (fresh : Nat)
    (s : State) : State :=
  if s.status = .running then s
  else
    let s2 := executeIteration opts err uiOk now (startReset (updateStatus .running s))
    { s2 with intervalId := some fresh }

/-- The 30-second auto-recovery callback armed by the catch block of
`executeIteration` (lines 180-184): if the status is still `error`, switch
back to `running`; otherwise do nothing. -/
def autoRecover (s : State) : State :=
  if s.status = .error then updateStatus .running s else s

/-- Events of the agent, used to quantify over every reachable state.
`startEv`, `pauseEv`, `stopEv` are the public control methods; `tickEv` is
one firing of the interval timer running `executeIteration` to completion;
`errorLandEv` is the late landing of the catch block of a tick whose
asynchronous part was still in flight when other events ran;
`workLandEv` is the late landing of the improvement increments of such a
tick; `recoverEv` is the firing of a scheduled auto-recovery timeout.
Events are allowed in any state, which over-approximates the schedules the
browser event loop can produce. -/
inductive Event where
  | startEv (err : Option String) (uiOk : Bool) (now : Nat) (fresh : Nat)
  | pauseEv
  | stopEv
  | tickEv (err : Option String) (uiOk : Bool) (now : Nat)
  | errorLandEv (m : String)
  | workLandEv (uiOk : Bool)
  | recoverEv
deriving DecidableEq

/-- One step of the agent under an event. -/
def step (opts : Options) : Event → State → State
  | .startEv err uiOk now fresh => start opts err uiOk now fresh
  | .pauseEv => pause
  | .stopEv => stop
  | .tickEv err uiOk now => executeIteration opts err uiOk now
  | .errorLandEv m => fun s => updateStatus .error { s with lastError := some m }
  | .workLandEv uiOk => fun s => { s with improvements := tickImprovements opts uiOk s.improvements }
  | .recoverEv => autoRecover

/-- The state reached from the freshly constructed agent after a sequence of
events. -/
def run (opts : Options) (evs : List Event) : State :=
  evs.foldl (fun s e => step opts e s) initialState

/-- An unattended run for the iteration-ceiling claim: `start()` from the
fresh agent (which already executes iteration number 1 when
`maxIterations ≥ 1`), followed by `k` firings of the interval timer, with
no error in any tick. `tau k` is the clock value at the k-th execution and
`u k` the environment bit deciding whether the preview forwarding of that
execution succeeded. -/
def iterRun (opts : Options) (tau : Nat → Nat) (u : Nat → Bool) (fresh : Nat) : Nat → State
  | 0 => start opts none (u 0) (tau 0) fresh initialState
  | k + 1 => executeIteration opts none (u (k + 1)) (tau (k + 1)) (iterRun opts tau u fresh k)

/-- Candidate timer invariant: the interval-timer handle is non-null only
when the agent is running or in the error state, or, when the iteration
budget is zero, in the paused state reached by the guard of the very first
iteration of `start()` (which pauses before line 105 arms the timer). -/
def timerInv (opts : Options) (s : State) : Prop :=
  s.intervalId ≠ none →
    s.status = .running ∨ s.status = .error
    ∨ (s.status = .paused ∧ opts.maxIterations = 0)

end AutonomousAgent

namespace CursorAIService

/-- Inbound WebSocket frames as seen by the one-shot message handlers of
`sendPrompt`, `runTests` and `updateCode` in aiPreviewAnalysisService.ts.
`frame ty success payload error message` is a successfully parsed JSON
object: `ty` is `data.type`, `success` is `data.success`, `payload` stands
for the operation payload `data.data`, `error` models `data.error` (absent
= `none`), and `message` models `data.message` (carried by frames of type
"error"). `malformed` is a frame on which `JSON.parse` throws; the handler
catches the exception, logs it and keeps waiting. -/
inductive WireIn where
  | frame (ty : String) (success : Bool) (payload : Nat) (error : Option String) (message : String)
  | malformed
deriving DecidableEq

/-- How a single remote-operation promise ends up settled, tagged by the
code path that produced the settlement: `resolved` by the success branch of
the one-shot handler, `rejectedError` by one of its reject branches (with
the backend-carried message), `rejectedTimeout` by the 30-second timeout
callback, and `resolvedFailure` by the outer catch block of the operation,
which returns the object with fields success set to false and error set to
the carried message (an async return, hence a promise resolution). -/
inductive Settlement where
  | resolved (payload : Nat)
  | rejectedError (msg : String)
  | rejectedTimeout
  | resolvedFailure (msg : String)
deriving DecidableEq

/-- State of one in-flight operation: the promise (which in JavaScript
records only the first resolve or reject call) and whether the one-shot
message handler is still registered on the WebSocket. -/
structure PendingState where
  settled : Option Settlement
  registered : Bool
deriving DecidableEq

/-- A resolve or reject call on the promise: JavaScript promises keep the
first settlement and ignore every later call. -/
def settle (o : Settlement) (p : PendingState) : PendingState :=
  match p.settled with
  | some _ => p
  | none => { p with settled := some o }

/-- The pending state right after `addEventListener` in the operation body:
unsettled, handler registered. -/
def initialPending : PendingState :=
  ⟨none, true⟩

/-- The one-shot `messageHandler` closure of the three operations
(`expected` is the response type the operation waits for:
"cursorResponse", "testResult" or "codeAnalysis"). A frame of the expected
type deregisters the handler and resolves on `data.success`, or rejects
with `data.error || "Unknown error"`; a frame of type "error" deregisters
and rejects with `data.message`; anything else (including a frame whose
parse throws) leaves the handler registered and the promise untouched.
A handler that is no longer registered receives nothing. -/
def messageHandler (expected : String) (m : WireIn) (p : PendingState) : PendingState :=
  if p.registered = false then p
  else
    match m with
    | .malformed => p
    | .frame ty success payload error message =>
      if ty = expected then
        settle (if success then .resolved payload else .rejectedError (error.getD "Unknown error"))
          { p with registered := false }
      else if ty = "error" then
        settle (.rejectedError message) { p with registered := false }
      else p

/-- The 30-second timeout callback: deregisters the handler and calls
reject with the timeout error. The reject call is unconditional in the
source; if the promise is already settled it is ignored by promise
semantics (`settle`). -/
def fireTimeout (p : PendingState) : PendingState :=
  settle .rejectedTimeout { p with registered := false }

/-- The whole correlation phase of one operation: the frames delivered
within the 30-second window are handled in arrival order, then the timeout
fires, then any frames arriving after the window are handled (they hit a
deregistered handler). -/
def runPending (expected : String) (early late : List WireIn) : PendingState :=
  late.foldl (fun p m => messageHandler expected m p)
    (fireTimeout (early.foldl (fun p m => messageHandler expected m p) initialPending))

/-- The settlement produced by the outer catch block when `connect()`
resolves false and the operation throws `Error("Failed to connect to
WebSocket")`: the catch returns `{ success: false, error: error.message }`
from the async function, i.e. the promise resolves with that object. -/
def connectFailureSettlement : Settlement :=
  .resolvedFailure "Failed to connect to WebSocket"

/-- One full remote operation with the channel phase abstracted:
`connectOk` is the boolean that `connect()` resolved with. On `false` the
operation settles through the outer catch; on `true` it enters the
correlation phase, whose promise settlement is the first recorded settle
call. The model covers the production build, in which `cursorEditor` is
null and `sendPrompt` goes straight to the server path. -/
def remoteOperation (expected : String) (connectOk : Bool) (early late : List WireIn) :
    Settlement :=
  if connectOk = false then connectFailureSettlement
  else ((runPending expected early late).settled).getD .rejectedTimeout

/-- `sendPrompt` waits for frames of type "cursorResponse". -/
def sendPromptOp (connectOk : Bool) (early late : List WireIn) : Settlement :=
  remoteOperation "cursorResponse" connectOk early late

/-- `runTests` waits for frames of type "testResult". -/
def runTestsOp (connectOk : Bool) (early late : List WireIn) : Settlement :=
  remoteOperation "testResult" connectOk early late

/-- `updateCode` waits for frames of type "codeAnalysis". -/
def updateCodeOp (connectOk : Bool) (early late : List WireIn) : Settlement :=
  remoteOperation "codeAnalysis" connectOk early late

/-- A frame that the one-shot handler of an operation reacts to: a parsed
frame whose type is the expected response type or "error". Written from the
claim, to characterise the first correlated response. -/
def isCorrelatedFrame (expected : String) (m : WireIn) : Bool :=
  match m with
  | .frame ty _ _ _ _ => decide (ty = expected) || decide (ty = "error")
  | .malformed => false

/-- Settlement predicted from the words of the claim: the first correlated
response decides the outcome (resolution with its payload on a success
flag, rejection with the backend-carried error otherwise), and the timeout
rejection happens when no correlated response arrives in the window. -/
def specSettlement (expected : String) (msgs : List WireIn) : Settlement :=
  match msgs.find? (isCorrelatedFrame expected) with
  | some (.frame ty success payload error message) =>
    if ty = expected then
      if success then .resolved payload else .rejectedError (error.getD "Unknown error")
    else .rejectedError message
  | _ => .rejectedTimeout

/-- The three settlement modes listed by the exactly-once claim:
resolution with a correlated response payload, rejection with a
backend-carried error, rejection by timeout. The resolution produced by
the outer catch block carries a locally built failure object, not a
correlated response payload, and is none of the three. -/
def isListedSettlementMode (s : Settlement) : Bool :=
  match s with
  | .resolved _ => true
  | .rejectedError _ => true
  | .rejectedTimeout => true
  | .resolvedFailure _ => false

/-- A settlement that is a promise rejection (either reject path). -/
def isRejection (s : Settlement) : Bool :=
  match s with
  | .rejectedError _ => true
  | .rejectedTimeout => true
  | .resolved _ => false
  | .resolvedFailure _ => false

end CursorAIService

namespace AILearningEngine

/-- The optional `result` record of a prompt history item. -/
structure PromptResult where
  success : Bool
  responseSnippet : String
  generatedCode : Option String
deriving DecidableEq

/-- `CursorPromptHistoryItem` of aiPreviewAnalysisService.ts. The `id` is
`Date.now().toString()` and the timestamp the corresponding clock value. -/
structure CursorPromptHistoryItem where
  id : String
  prompt : String
  timestamp : Nat
  fileId : Option String
  fileContext : Option String
  result : Option PromptResult
deriving DecidableEq

/-- The learning-engine state: `promptPatterns` and `contextualSuccess` are
JavaScript Maps, modelled as insertion-ordered association lists;
`userFeedback` maps a prompt id to its positive and negative counts;
`promptHistory` is the bounded prompt log. -/
structure LearnState where
  promptPatterns : List (String × Nat)
  contextualSuccess : List (String × Nat)
  userFeedback : List (String × Nat × Nat)
  promptHistory : List CursorPromptHistoryItem
deriving DecidableEq

/-- The engine state when local storage is empty. -/
def initialLearnState : LearnState :=
  ⟨[], [], [], []⟩

/-- `Map.get`: the value stored under the first (and, by `mapSet`
construction, only) entry with the given key. -/
def mapFind? : List (String × Nat) → String → Option Nat
  | [], _ => none
  | p :: rest, k => if p.1 = k then some p.2 else mapFind? rest k

/-- `this.promptPatterns.get(keyword) || 0`: a missing key reads as 0. -/
def mapGetD (m : List (String × Nat)) (k : String) : Nat :=
  (mapFind? m k).getD 0

/-- `Map.set`: update the entry in place when the key is present (keeping
its insertion position), append a fresh entry at the end otherwise. -/
def mapSet : List (String × Nat) → String → Nat → List (String × Nat)
  | [], k, v => [(k, v)]
  | p :: rest, k, v => if p.1 = k then (k, v) :: rest else p :: mapSet rest k v

/-- The fixed stop-word list of `extractKeywords`. -/
def stopWords : List String :=
  ["the", "and", "is", "in", "to", "a", "for", "of", "with", "on", "this"]

/-- Splitting a character list at every separator character, keeping empty
pieces, accumulator-first. The JavaScript split on a whitespace regex
collapses separator runs instead of producing empty pieces, but every empty
piece is removed by the length filter of `extractKeywords` anyway, so the
two readings agree after filtering. -/
def splitBy (p : Char → Bool) : List Char → List Char → List (List Char)
  | acc, [] => [acc.reverse]
  | acc, c :: rest => if p c then acc.reverse :: splitBy p [] rest else splitBy p (c :: acc) rest

/-- `text.toLowerCase()`: ASCII-faithful lowercasing, character by
character (the String library versions do not reduce in the kernel, so the
model works on the character list). Lowercasing before splitting equals
splitting the lowercased text because lowercasing fixes whitespace. -/
def toLowerStr (s : String) : String :=
  String.mk (s.toList.map Char.toLower)

/-- `extractKeywords` of aiPreviewAnalysisService.ts: lowercase, split on
whitespace, keep words longer than 3 characters that are not stop words,
take the first 5. -/
def extractKeywords (text : String) : List String :=
  (((splitBy Char.isWhitespace [] (toLowerStr text).toList).map
        (fun cs => String.mk cs)).filter
      (fun word => decide (3 < word.length) && !(stopWords.contains word))).take 5

/-- Collapse every whitespace run to a single space, tracking whether the
previous character was whitespace: the `replace` of `getContextKey` with a
global whitespace regex. -/
def collapseWs : Bool → List Char → List Char
  | _, [] => []
  | prevWs, c :: rest =>
    if c.isWhitespace then
      if prevWs then collapseWs true rest
      else ' ' :: collapseWs true rest
    else c :: collapseWs false rest

/-- Strip leading and trailing whitespace: `String.prototype.trim`. -/
def trimChars (cs : List Char) : List Char :=
  ((cs.dropWhile Char.isWhitespace).reverse.dropWhile Char.isWhitespace).reverse

/-- `getContextKey`: first 100 characters of the context, whitespace runs
collapsed to single spaces, then trimmed. -/
def getContextKey (context : String) : String :=
  String.mk (trimChars (collapseWs false (context.toList.take 100)))

/-- `recordSuccess(prompt, fileContext)`: increment the pattern counter of
every extracted keyword and the contextual counter of the context key,
exactly as the forEach loop and the two Map reads and writes do. The
`saveToLocalStorage` call does not change the in-memory state. -/
def recordSuccess (prompt fileContext : String) (st : LearnState) : LearnState :=
  let keywords := extractKeywords prompt
  let pp := keywords.foldl (fun m kw => mapSet m kw (mapGetD m kw + 1)) st.promptPatterns
  let contextKey := getContextKey fileContext
  { st with
    promptPatterns := pp
    contextualSuccess := mapSet st.contextualSuccess contextKey (mapGetD st.contextualSuccess contextKey + 1) }

/-- The `promptItem` literal built by `recordPrompt` at clock value `now`
(`id` is `Date.now().toString()`, `timestamp` the same clock reading). -/
def mkPromptItem (now : Nat) (prompt : String) (fileId fileContext : Option String)
    (result : Option PromptResult) : CursorPromptHistoryItem :=
  ⟨toString now, prompt, now, fileId, fileContext, result⟩

/-- `recordPrompt` of aiPreviewAnalysisService.ts: append the new item,
then, when the history holds more than 50 items, keep the last 50
(`slice(-50)` is dropping all but the last 50). -/
def recordPrompt (now : Nat) (prompt : String) (fileId fileContext : Option String)
    (result : Option PromptResult) (st : LearnState) : LearnState :=
  let h2 := st.promptHistory ++ [mkPromptItem now prompt fileId fileContext result]
  { st with promptHistory := if 50 < h2.length then h2.drop (h2.length - 50) else h2 }

/-- The argument tuple of one `recordPrompt` call. -/
structure PromptCall where
  now : Nat
  prompt : String
  fileId : Option String
  fileContext : Option String
  result : Option PromptResult
deriving DecidableEq

/-- A sequence of `recordPrompt` calls applied in order. -/
def runRecordPrompts (st : LearnState) (calls : List PromptCall) : LearnState :=
  calls.foldl (fun s c => recordPrompt c.now c.prompt c.fileId c.fileContext c.result s) st

/-- The last `n` elements of a list in order: the characterisation the
ring-buffer claim uses for the retained history. -/
def lastN (n : Nat) (l : List α) : List α :=
  l.drop (l.length - n)

/-- JavaScript `x || fallback` on an optional string: the fallback is used
both when the value is absent and when it is the empty string (which is
falsy). -/
def jsOrString (x : Option String) (fallback : String) : String :=
  match x with
  | some s => if s = "" then fallback else s
  | none => fallback

/-- Stable insertion of an entry into a count-descending list: the entry
goes after every entry with a greater or equal count. -/
def insertDesc (x : String × Nat) : List (String × Nat) → List (String × Nat)
  | [] => [x]
  | y :: rest => if y.2 < x.2 then x :: y :: rest else y :: insertDesc x rest

/-- `Array.from(map.entries()).sort((a, b) => b[1] - a[1])`: a stable sort
of the entries by descending count (JavaScript array sort is stable; any
stable descending sort is a faithful model, here insertion sort). -/
def sortDesc (l : List (String × Nat)) : List (String × Nat) :=
  l.foldl (fun acc x => insertDesc x acc) []

/-- The `sortedPatterns` local of `getSuggestions`: entries sorted by
descending count, first 5, keys only. -/
def sortedPatterns (patterns : List (String × Nat)) : List String :=
  ((sortDesc patterns).take 5).map Prod.fst

/-- `haystack.includes(needle)` on character lists. -/
def includesAux (needle : List Char) : List Char → Bool
  | [] => needle.isEmpty
  | c :: rest => needle.isPrefixOf (c :: rest) || includesAux needle rest

/-- JavaScript `String.prototype.includes`. -/
def jsIncludes (s pat : String) : Bool :=
  includesAux pat.toList s.toList

/-- `promptIntent.split(' ').slice(-1)[0]`: the piece after the last space
(split on a single space keeps empty pieces; the result list is never
empty). -/
def lastToken (s : String) : String :=
  String.mk ((splitBy (fun c => c == ' ') [] s.toList).getLastD [])

/-- `getSuggestions(currentContext, promptIntent)` of
aiPreviewAnalysisService.ts, branch for branch. The source also computes
`getContextKey(currentContext)` and never uses it, so the context does not
influence the result. -/
def getSuggestions (st : LearnState) (currentContext promptIntent : String) : List String :=
  let sorted := sortedPatterns st.promptPatterns
  if jsIncludes promptIntent "fix" || jsIncludes promptIntent "debug" then
    ["Fix the issues in this code: " ++ String.intercalate ", " (sorted.take 2),
     "Identify and resolve all bugs related to " ++ jsOrString sorted.head? "functionality"]
  else if jsIncludes promptIntent "implement" || jsIncludes promptIntent "create" then
    ["Implement a " ++ jsOrString sorted.head? "function" ++ " that handles " ++ lastToken promptIntent,
     "Create a complete implementation for this feature following best practices"]
  else if jsIncludes promptIntent "optimize" || jsIncludes promptIntent "improve" then
    ["Optimize this code for better performance and readability",
     "Improve the " ++ jsOrString sorted.head? "code" ++ " structure while maintaining functionality"]
  else if jsIncludes promptIntent "explain" then
    ["Explain how this code works and identify any potential issues"]
  else
    ["Complete the implementation for the current functionality",
     "Suggest improvements for this code block"]

end AILearningEngine


/-! ## Lemmas and claim theorems for the autonomous agent -/

open AutonomousAgent CursorAIService AILearningEngine

theorem iterRun_spec (opts : Options) (tau : Nat → Nat) (u : Nat → Bool) (fresh : Nat)
    (k : Nat) :
    k < opts.maxIterations →
      (iterRun opts tau u fresh k).status = .running
      ∧ (iterRun opts tau u fresh k).currentIteration = k + 1
      ∧ (iterRun opts tau u fresh k).lastRun = some (tau k)
      ∧ (iterRun opts tau u fresh k).intervalId = some fresh := by
  induction k with
  | zero =>
    intro hk
    have h0 : ¬ ((0 : Nat) ≥ opts.maxIterations) := by omega
    simp [iterRun, start, initialState, startReset, updateStatus, executeIteration, h0]
  | succ n ih =>
    intro hk
    obtain ⟨hs, hi, _, hv⟩ := ih (by omega)
    have hguard : ¬ (opts.maxIterations ≤ n + 1) := by omega
    simp [iterRun, executeIteration, hguard, hi, hs, hv]

/-- C1: starting the agent with `maxIterations = N ≥ 1` and letting the
timer fire unattended executes exactly N iterations, the k-th of them
running with `currentIteration = k` and a recorded `lastRun`, and the next
firing after the N-th iteration triggers the guard, which pauses the loop
and skips the work: the final status is paused, `currentIteration` stays
N, and the interval timer is cleared. -/
theorem claim_C1_iteration_ceiling (opts : Options) (N : Nat) (hM : opts.maxIterations = N)
    (hN : 1 ≤ N) (tau : Nat → Nat) (u : Nat → Bool) (fresh : Nat) :
    (∀ k, k < N →
        (iterRun opts tau u fresh k).status = .running
        ∧ (iterRun opts tau u fresh k).currentIteration = k + 1
        ∧ (iterRun opts tau u fresh k).lastRun = some (tau k))
    ∧ (iterRun opts tau u fresh N).status = .paused
    ∧ (iterRun opts tau u fresh N).currentIteration = N
    ∧ (iterRun opts tau u fresh N).intervalId = none := by
  constructor
  · intro k hk
    obtain ⟨h1, h2, h3, _⟩ := iterRun_spec opts tau u fresh k (by omega)
    exact ⟨h1, h2, h3⟩
  · obtain ⟨h1, h2, _, _⟩ := iterRun_spec opts tau u fresh (N - 1) (by omega)
    have hN1 : N - 1 + 1 = N := by omega
    have heq : iterRun opts tau u fresh N
        = executeIteration opts none (u (N - 1 + 1)) (tau (N - 1 + 1))
            (iterRun opts tau u fresh (N - 1)) := by
      conv_lhs => rw [← hN1]
      rfl
    have hguard : opts.maxIterations ≤ N := by omega
    rw [heq]
    simp [executeIteration, hguard, pause, h1, h2, hN1, updateStatus]

/-- C1 witness: a concrete unattended run with `maxIterations = 2`. -/
theorem claim_C1_witness :
    (∀ k, k < 2 →
        (iterRun ⟨⟨true, true, true, true⟩, 10000, 2⟩ (fun j => j) (fun _ => true) 7 k).status
            = .running
        ∧ (iterRun ⟨⟨true, true, true, true⟩, 10000, 2⟩ (fun j => j) (fun _ => true) 7
              k).currentIteration = k + 1
        ∧ (iterRun ⟨⟨true, true, true, true⟩, 10000, 2⟩ (fun j => j) (fun _ => true) 7
              k).lastRun = some k)
    ∧ (iterRun ⟨⟨true, true, true, true⟩, 10000, 2⟩ (fun j => j) (fun _ => true) 7 2).status
        = .paused
    ∧ (iterRun ⟨⟨true, true, true, true⟩, 10000, 2⟩ (fun j => j) (fun _ => true) 7
          2).currentIteration = 2
    ∧ (iterRun ⟨⟨true, true, true, true⟩, 10000, 2⟩ (fun j => j) (fun _ => true) 7 2).intervalId
        = none :=
  claim_C1_iteration_ceiling ⟨⟨true, true, true, true⟩, 10000, 2⟩ 2 rfl (by decide)
    (fun j => j) (fun _ => true) 7

theorem pause_timerInv (opts : Options) (s : State) (h : timerInv opts s) :
    timerInv opts (pause s) := by
  unfold timerInv pause updateStatus at *
  split
  · exact h
  · simp

theorem stop_timerInv (opts : Options) (s : State) (h : timerInv opts s) :
    timerInv opts (stop s) := by
  unfold timerInv stop updateStatus at *
  simp

theorem executeIteration_timerInv (opts : Options) (err : Option String) (uiOk : Bool)
    (now : Nat) (s : State) (h : timerInv opts s) :
    timerInv opts (executeIteration opts err uiOk now s) := by
  unfold executeIteration
  split
  · exact pause_timerInv opts s h
  · cases err with
    | none => exact h
    | some m => exact fun _ => Or.inr (Or.inl rfl)

theorem start_timerInv (opts : Options) (err : Option String) (uiOk : Bool) (now fresh : Nat)
    (s : State) (h : timerInv opts s) :
    timerInv opts (start opts err uiOk now fresh s) := by
  unfold start
  split
  · exact h
  · intro _
    unfold executeIteration
    split
    · rename_i hguard
      have hmax : opts.maxIterations = 0 := by
        simpa [startReset, updateStatus] using hguard
      simp [pause, startReset, updateStatus, hmax]
    · cases err with
      | none => exact Or.inl rfl
      | some m => exact Or.inr (Or.inl rfl)

theorem step_timerInv (opts : Options) (e : Event) (s : State) (h : timerInv opts s) :
    timerInv opts (step opts e s) := by
  cases e with
  | startEv err uiOk now fresh => exact start_timerInv opts err uiOk now fresh s h
  | pauseEv => exact pause_timerInv opts s h
  | stopEv => exact stop_timerInv opts s h
  | tickEv err uiOk now => exact executeIteration_timerInv opts err uiOk now s h
  | errorLandEv m => exact fun _ => Or.inr (Or.inl rfl)
  | workLandEv uiOk => exact h
  | recoverEv =>
    show timerInv opts (autoRecover s)
    unfold autoRecover
    split
    · exact fun _ => Or.inl rfl
    · exact h

theorem run_timerInv (opts : Options) (evs : List Event) : timerInv opts (run opts evs) := by
  suffices hgen : ∀ (l : List Event) (s : State), timerInv opts s →
      timerInv opts (l.foldl (fun t e => step opts e t) s) by
    exact hgen evs initialState (fun hne => absurd rfl hne)
  intro l
  induction l with
  | nil => exact fun s hs => hs
  | cons e rest ih => exact fun s hs => ih _ (step_timerInv opts e s hs)

/-- C3 (amended): in every reachable state, the interval-timer handle is
non-null only when the status is running or error (the catch block of a
tick does not cancel the timer), or, in the degenerate case
`maxIterations = 0`, paused (the guard of the immediate first iteration of
`start()` pauses before line 105 arms the timer). -/
theorem claim_C3_timer_only_when_running_or_error (opts : Options) (evs : List Event)
    (h : (run opts evs).intervalId ≠ none) :
    (run opts evs).status = .running ∨ (run opts evs).status = .error
    ∨ ((run opts evs).status = .paused ∧ opts.maxIterations = 0) :=
  run_timerInv opts evs h

/-- C3 witness: after a plain `start()` the timer is armed and the status
is running. -/
theorem claim_C3_witness :
    (run defaultOptions [.startEv none true 0 1]).status = .running
    ∨ (run defaultOptions [.startEv none true 0 1]).status = .error
    ∨ ((run defaultOptions [.startEv none true 0 1]).status = .paused
        ∧ defaultOptions.maxIterations = 0) :=
  claim_C3_timer_only_when_running_or_error defaultOptions [.startEv none true 0 1] (by decide)

/-- C3 counterexample to the claim as stated: after `start()` and one tick
whose handler throws, the agent is in the error state while the interval
timer handle is still non-null, so the timer is active in a state whose
status is not running. -/
theorem claim_C3_counterexample :
    (run defaultOptions [.startEv none true 0 1, .tickEv (some "boom") true 10]).intervalId
        = some 1
    ∧ (run defaultOptions [.startEv none true 0 1, .tickEv (some "boom") true 10]).status
        = .error
    ∧ (run defaultOptions [.startEv none true 0 1, .tickEv (some "boom") true 10]).status
        ≠ .running := by
  decide

theorem executeIteration_preserves_error (opts : Options) (err : Option String) (uiOk : Bool)
    (now : Nat) (s : State) (h : s.status = .error) :
    (executeIteration opts err uiOk now s).status = .error := by
  unfold executeIteration pause updateStatus
  split
  · split
    · exact h
    · rename_i hrun
      rw [h] at hrun
      simp at hrun
  · cases err with
    | none => exact h
    | some m => rfl

/-- C4: a tick whose body throws (with the iteration guard passing, since
a guarded tick skips the work and cannot throw) moves the agent to the
error status and records the message in `lastError`; further tick firings
never leave the error status, the 30-second recovery callback flips an
error status back to running, and it does nothing when the status has
already been changed away from error. -/
theorem claim_C4_error_auto_recovery (opts : Options) (s : State) (m : String) (uiOk : Bool)
    (now : Nat) :
    (s.currentIteration < opts.maxIterations →
        (executeIteration opts (some m) uiOk now s).status = .error
        ∧ (executeIteration opts (some m) uiOk now s).lastError = some m)
    ∧ (s.status = .error →
        ∀ ticks : List (Option String × Bool × Nat),
          (ticks.foldl (fun st t => executeIteration opts t.1 t.2.1 t.2.2 st) s).status = .error)
    ∧ (s.status = .error → (autoRecover s).status = .running)
    ∧ (s.status ≠ .error → autoRecover s = s) := by
  refine ⟨fun hlt => ?_, fun herr ticks => ?_, fun herr => ?_, fun hne => ?_⟩
  · have hguard : ¬ (s.currentIteration ≥ opts.maxIterations) := by omega
    simp [executeIteration, hguard, updateStatus]
  · induction ticks generalizing s with
    | nil => exact herr
    | cons t rest ih =>
      exact ih _ (executeIteration_preserves_error opts t.1 t.2.1 t.2.2 s herr)
  · unfold autoRecover
    simp [herr, updateStatus]
  · unfold autoRecover
    simp [hne]

/-- C4 witness: a concrete throwing tick, a concrete stay-in-error tick
sequence, a concrete recovery, and a concrete no-op recovery. -/
theorem claim_C4_witness :
    ((executeIteration defaultOptions (some "boom") true 3 initialState).status = .error
      ∧ (executeIteration defaultOptions (some "boom") true 3 initialState).lastError
          = some "boom")
    ∧ (([((some "x" : Option String), true, 5)].foldl
          (fun st t => executeIteration defaultOptions t.1 t.2.1 t.2.2 st)
          { initialState with status := .error }).status = .error)
    ∧ (autoRecover { initialState with status := .error }).status = .running
    ∧ autoRecover initialState = initialState :=
  ⟨(claim_C4_error_auto_recovery defaultOptions initialState "boom" true 3).1 (by decide),
   (claim_C4_error_auto_recovery defaultOptions { initialState with status := .error } "boom"
      true 3).2.1 rfl [((some "x" : Option String), true, 5)],
   (claim_C4_error_auto_recovery defaultOptions { initialState with status := .error } "boom"
      true 3).2.2.1 rfl,
   (claim_C4_error_auto_recovery defaultOptions initialState "boom" true 3).2.2.2 (by decide)⟩

/-- C5 counterexample: after a run whose first tick throws "boom", the
30-second recovery transitions error back to running, yet `lastError`
still holds "boom" instead of being cleared to null: `updateStatus` never
touches `lastError`. -/
theorem claim_C5_counterexample :
    (run defaultOptions [.startEv (some "boom") true 0 1]).status = .error
    ∧ (autoRecover (run defaultOptions [.startEv (some "boom") true 0 1])).status = .running
    ∧ (autoRecover (run defaultOptions [.startEv (some "boom") true 0 1])).lastError
        = some "boom"
    ∧ (autoRecover (run defaultOptions [.startEv (some "boom") true 0 1])).lastError ≠ none := by
  decide

/-- C5 (amended): the transition from error back to running performed by
the auto-recovery callback leaves `lastError` unchanged; the message is
not cleared and is only ever overwritten by a later throwing tick. -/
theorem claim_C5_last_error_not_cleared (s : State) :
    (autoRecover s).lastError = s.lastError
    ∧ (s.status = .error → (autoRecover s).status = .running) := by
  constructor
  · unfold autoRecover updateStatus
    split <;> rfl
  · intro h
    unfold autoRecover
    simp [h, updateStatus]

/-- C5 witness: the amended statement at a concrete error state. -/
theorem claim_C5_witness :
    (autoRecover { initialState with status := .error, lastError := some "x" }).lastError
        = some "x"
    ∧ (autoRecover { initialState with status := .error, lastError := some "x" }).status
        = .running :=
  ⟨(claim_C5_last_error_not_cleared { initialState with status := .error, lastError := some "x" }).1,
   (claim_C5_last_error_not_cleared { initialState with status := .error, lastError := some "x" }).2 rfl⟩

/-- C6: `start()` from any non-running status yields a state that does not
depend on the prior `currentIteration` or improvement counters (they are
reset to zero before the first iteration runs), and `pause()` followed by
`start()` restarts counting from zero: the immediate first iteration
leaves `currentIteration = 1` and exactly the improvements of a single
fresh tick. -/
theorem claim_C6_start_resets_counters (opts : Options) (err : Option String) (uiOk : Bool)
    (now fresh : Nat) (s : State) (c : Nat) (imp : Improvements) :
    (s.status ≠ .running →
        start opts err uiOk now fresh { s with currentIteration := c, improvements := imp }
          = start opts err uiOk now fresh
              { s with currentIteration := 0, improvements := ⟨0, 0, 0, 0⟩ })
    ∧ (s.status = .running → 1 ≤ opts.maxIterations →
        (start opts none uiOk now fresh (pause s)).currentIteration = 1
        ∧ (start opts none uiOk now fresh (pause s)).improvements
            = tickImprovements opts uiOk ⟨0, 0, 0, 0⟩) := by
  constructor
  · intro h
    unfold start
    split
    · rename_i hc
      exact absurd hc h
    · rfl
  · intro hrun hmax
    have hp : pause s = updateStatus .paused { s with intervalId := none } := by
      unfold pause
      simp [hrun]
    have hg : ¬ (opts.maxIterations ≤ 0) := by omega
    simp [hp, start, updateStatus, startReset, executeIteration, hg]

/-- C6 witness: the reset equality at a concrete dirty idle state, and the
pause-then-start restart at a concrete running state. -/
theorem claim_C6_witness :
    (start defaultOptions none true 0 1
        { initialState with currentIteration := 7, improvements := ⟨1, 2, 3, 4⟩ }
      = start defaultOptions none true 0 1
          { initialState with currentIteration := 0, improvements := ⟨0, 0, 0, 0⟩ })
    ∧ ((start defaultOptions none true 0 1
          (pause { initialState with status := .running })).currentIteration = 1
      ∧ (start defaultOptions none true 0 1
            (pause { initialState with status := .running })).improvements
          = tickImprovements defaultOptions true ⟨0, 0, 0, 0⟩) :=
  ⟨(claim_C6_start_resets_counters defaultOptions none true 0 1 initialState 7
      ⟨1, 2, 3, 4⟩).1 (by decide),
   (claim_C6_start_resets_counters defaultOptions none true 0 1
      { initialState with status := .running } 0 ⟨0, 0, 0, 0⟩).2 rfl (by decide)⟩

/-! ## Lemmas and claim theorems for the remote-operation correlation layer -/

theorem messageHandler_unregistered (expected : String) (m : WireIn) (p : PendingState)
    (h : p.registered = false) : messageHandler expected m p = p := by
  unfold messageHandler
  simp [h]

theorem foldl_messageHandler_unregistered (expected : String) (msgs : List WireIn)
    (p : PendingState) (h : p.registered = false) :
    msgs.foldl (fun q m => messageHandler expected m q) p = p := by
  induction msgs with
  | nil => rfl
  | cons m rest ih =>
    rw [List.foldl_cons, messageHandler_unregistered expected m p h]
    exact ih

theorem fireTimeout_registered (p : PendingState) : (fireTimeout p).registered = false := by
  unfold fireTimeout settle
  split <;> rfl

theorem runPending_settled (expected : String) (early late : List WireIn) :
    (runPending expected early late).settled = some (specSettlement expected early) := by
  unfold runPending
  rw [foldl_messageHandler_unregistered expected late _ (fireTimeout_registered _)]
  induction early with
  | nil => rfl
  | cons m rest ih =>
    cases m with
    | malformed =>
      rw [List.foldl_cons]
      have hm : messageHandler expected .malformed initialPending = initialPending := rfl
      rw [hm, ih]
      rfl
    | frame ty success payload error message =>
      by_cases h1 : ty = expected
      · rw [List.foldl_cons]
        have hm : messageHandler expected (.frame ty success payload error message) initialPending
            = ⟨some (if success then .resolved payload
                     else .rejectedError (error.getD "Unknown error")), false⟩ := by
          unfold messageHandler initialPending settle
          simp [h1]
        rw [hm, foldl_messageHandler_unregistered expected rest _ rfl]
        have hspec : specSettlement expected (.frame ty success payload error message :: rest)
            = if success then .resolved payload
              else .rejectedError (error.getD "Unknown error") := by
          unfold specSettlement isCorrelatedFrame
          simp [h1]
        rw [hspec]
        unfold fireTimeout settle
        rfl
      · by_cases h2 : ty = "error"
        · subst h2
          rw [List.foldl_cons]
          have hm : messageHandler expected (.frame "error" success payload error message)
              initialPending = ⟨some (.rejectedError message), false⟩ := by
            unfold messageHandler initialPending settle
            simp [h1]
          rw [hm, foldl_messageHandler_unregistered expected rest _ rfl]
          have hspec : specSettlement expected (.frame "error" success payload error message :: rest)
              = .rejectedError message := by
            unfold specSettlement isCorrelatedFrame
            simp [h1]
          rw [hspec]
          unfold fireTimeout settle
          rfl
        · rw [List.foldl_cons]
          have hm : messageHandler expected (.frame ty success payload error message)
              initialPending = initialPending := by
            unfold messageHandler initialPending
            simp [h1, h2]
          rw [hm, ih]
          have hspec : specSettlement expected (.frame ty success payload error message :: rest)
              = specSettlement expected rest := by
            unfold specSettlement isCorrelatedFrame
            simp [h1, h2]
          rw [hspec]

/-- C2 (amended): each single invocation of a remote operation settles
exactly once, and the settlement is fully determined: when the channel
connects, it is exactly the one dictated by the first correlated frame of
the 30-second window (resolution with its payload on a success flag,
rejection with the backend-carried error on a failure flag or an
error-type frame), and the timeout rejection when no correlated frame
arrives; frames after the first correlated one and frames after the
window are ignored by the deregistered handler and by promise semantics.
When the channel cannot be established, the operation instead settles
immediately through the outer catch block, by resolution with the
failure object carrying "Failed to connect to WebSocket". -/
theorem claim_C2_exactly_once_settlement (connectOk : Bool) (early late : List WireIn) :
    (connectOk = true →
        sendPromptOp connectOk early late = specSettlement "cursorResponse" early
        ∧ runTestsOp connectOk early late = specSettlement "testResult" early
        ∧ updateCodeOp connectOk early late = specSettlement "codeAnalysis" early)
    ∧ (connectOk = false →
        sendPromptOp connectOk early late = connectFailureSettlement
        ∧ runTestsOp connectOk early late = connectFailureSettlement
        ∧ updateCodeOp connectOk early late = connectFailureSettlement)
    ∧ ((runPending "cursorResponse" early late).settled).isSome = true := by
  refine ⟨fun hc => ?_, fun hc => ?_, ?_⟩
  · subst hc
    refine ⟨?_, ?_, ?_⟩ <;>
      simp [sendPromptOp, runTestsOp, updateCodeOp, remoteOperation, runPending_settled]
  · subst hc
    exact ⟨rfl, rfl, rfl⟩
  · rw [runPending_settled]
    rfl

/-- C2 witness: both hypotheses of the amended settlement theorem
discharged at concrete inputs. -/
theorem claim_C2_witness :
    (sendPromptOp true [] [] = specSettlement "cursorResponse" []
      ∧ runTestsOp true [] [] = specSettlement "testResult" []
      ∧ updateCodeOp true [] [] = specSettlement "codeAnalysis" [])
    ∧ (sendPromptOp false [] [] = connectFailureSettlement
      ∧ runTestsOp false [] [] = connectFailureSettlement
      ∧ updateCodeOp false [] [] = connectFailureSettlement) :=
  ⟨(claim_C2_exactly_once_settlement true [] []).1 rfl,
   (claim_C2_exactly_once_settlement false [] []).2.1 rfl⟩

/-- C2 counterexample to the claim as stated: when `connect()` resolves
false, `runTests` settles through the outer catch block by resolving with
the failure object, which is none of the three settlement modes the claim
lists (resolution with a correlated response payload, rejection with a
backend error, rejection by timeout). -/
theorem claim_C2_counterexample :
    runTestsOp false [] [] = .resolvedFailure "Failed to connect to WebSocket"
    ∧ isListedSettlementMode (runTestsOp false [] []) = false := by
  decide

/-- C7 (amended): when the channel cannot be established, each of the
three operations settles immediately and independently of any frames or of
the 30-second timeout, but by promise resolution with the object carrying
"Failed to connect to WebSocket" (an async return from the outer catch
block), not by promise rejection; the carried text differs from the
timeout text "Request timed out", so the caller can distinguish the two
failure paths by error content. -/
theorem claim_C7_connect_failure_resolves (early late : List WireIn) :
    sendPromptOp false early late = connectFailureSettlement
    ∧ runTestsOp false early late = connectFailureSettlement
    ∧ updateCodeOp false early late = connectFailureSettlement
    ∧ connectFailureSettlement = .resolvedFailure "Failed to connect to WebSocket"
    ∧ connectFailureSettlement ≠ .rejectedTimeout
    ∧ ("Failed to connect to WebSocket" : String) ≠ "Request timed out" := by
  refine ⟨rfl, rfl, rfl, rfl, by decide, by decide⟩

/-- C7 counterexample to the claim as stated: with the channel down,
`updateCode` does not reject at all; it resolves with the failure
object. -/
theorem claim_C7_counterexample :
    updateCodeOp false [] [] = .resolvedFailure "Failed to connect to WebSocket"
    ∧ isRejection (updateCodeOp false [] []) = false := by
  decide

/-! ## Lemmas and claim theorems for the learning and history store -/

theorem lastN_of_length_le {α : Type _} (n : Nat) (l : List α) (h : l.length ≤ n) :
    lastN n l = l := by
  unfold lastN
  rw [Nat.sub_eq_zero_of_le h, List.drop_zero]

theorem lastN_length_le {α : Type _} (n : Nat) (l : List α) : (lastN n l).length ≤ n := by
  unfold lastN
  rw [List.length_drop]
  omega

theorem lastN_cons_of_le {α : Type _} (n : Nat) (a : α) (l : List α) (h : n ≤ l.length) :
    lastN n (a :: l) = lastN n l := by
  unfold lastN
  rw [List.length_cons, show l.length + 1 - n = (l.length - n) + 1 from by omega,
    List.drop_succ_cons]

theorem lastN_lastN_append {α : Type _} (n : Nat) (l t : List α) :
    lastN n (lastN n l ++ t) = lastN n (l ++ t) := by
  induction l with
  | nil => simp [lastN]
  | cons a l ih =>
    by_cases h : n ≤ l.length
    · rw [lastN_cons_of_le n a l h, ih, List.cons_append, lastN_cons_of_le]
      rw [List.length_append]
      omega
    · rw [lastN_of_length_le n (a :: l) (by simp; omega)]

theorem recordPrompt_history (now : Nat) (prompt : String) (fid fctx : Option String)
    (res : Option PromptResult) (st : LearnState) (h : st.promptHistory.length ≤ 50) :
    (recordPrompt now prompt fid fctx res st).promptHistory
      = lastN 50 (st.promptHistory ++ [mkPromptItem now prompt fid fctx res])
    ∧ (recordPrompt now prompt fid fctx res st).promptHistory.length ≤ 50 := by
  unfold recordPrompt
  by_cases hlen : 50 < (st.promptHistory ++ [mkPromptItem now prompt fid fctx res]).length
  · constructor
    · simp only [hlen, if_pos]
      rfl
    · simp only [hlen, if_pos]
      rw [List.length_drop]
      omega
  · constructor
    · simp only [hlen, if_neg, ite_false]
      rw [lastN_of_length_le]
      omega
    · simp only [hlen, if_neg, ite_false]
      omega

theorem runRecordPrompts_history (calls : List PromptCall) (st : LearnState)
    (h : st.promptHistory.length ≤ 50) :
    (runRecordPrompts st calls).promptHistory
      = lastN 50 (st.promptHistory
          ++ calls.map (fun c => mkPromptItem c.now c.prompt c.fileId c.fileContext c.result))
    ∧ (runRecordPrompts st calls).promptHistory.length ≤ 50 := by
  induction calls generalizing st with
  | nil =>
    refine ⟨?_, h⟩
    rw [List.map_nil, List.append_nil, lastN_of_length_le 50 _ h]
    rfl
  | cons c cs ih =>
    obtain ⟨he, hl⟩ := recordPrompt_history c.now c.prompt c.fileId c.fileContext c.result st h
    have hstep : runRecordPrompts st (c :: cs)
        = runRecordPrompts (recordPrompt c.now c.prompt c.fileId c.fileContext c.result st) cs :=
      rfl
    obtain ⟨ihe, ihl⟩ := ih (recordPrompt c.now c.prompt c.fileId c.fileContext c.result st) hl
    refine ⟨?_, by rw [hstep]; exact ihl⟩
    rw [hstep, ihe, he, lastN_lastN_append, List.append_assoc]
    rfl

/-- C8: for every sequence of `recordPrompt` calls on a fresh store, the
history after the calls (hence after every prefix of them, since every
prefix is itself such a sequence) holds at most 50 entries, and the
retained entries are exactly the most recently recorded ones in call
order: the last 50 of the full call sequence. -/
theorem claim_C8_ring_buffer (calls : List PromptCall) :
    (runRecordPrompts initialLearnState calls).promptHistory
      = lastN 50 (calls.map (fun c => mkPromptItem c.now c.prompt c.fileId c.fileContext c.result))
    ∧ (runRecordPrompts initialLearnState calls).promptHistory.length ≤ 50 := by
  have h := runRecordPrompts_history calls initialLearnState (by simp [initialLearnState])
  simpa [initialLearnState] using h

theorem mapGetD_mapSet_self (m : List (String × Nat)) (k : String) (v : Nat) :
    mapGetD (mapSet m k v) k = v := by
  induction m with
  | nil => simp [mapSet, mapGetD, mapFind?]
  | cons p rest ih =>
    by_cases hp : p.1 = k
    · simp [mapSet, mapGetD, mapFind?, hp]
    · simpa [mapSet, mapGetD, mapFind?, hp] using ih

theorem mapGetD_mapSet_ne (m : List (String × Nat)) (k : String) (v : Nat) (j : String)
    (h : j ≠ k) : mapGetD (mapSet m k v) j = mapGetD m j := by
  induction m with
  | nil =>
    have hkj : ¬ (k = j) := fun hh => h hh.symm
    simp [mapSet, mapGetD, mapFind?, hkj]
  | cons p rest ih =>
    by_cases hp : p.1 = k
    · have hpj : ¬ (p.1 = j) := by
        rw [hp]
        exact fun hh => h hh.symm
      have hkj : ¬ (k = j) := fun hh => h hh.symm
      simp [mapSet, mapGetD, mapFind?, hp, hpj, hkj]
    · by_cases hpj : p.1 = j
      · simp [mapSet, mapGetD, mapFind?, hp, hpj, h]
      · simpa [mapSet, mapGetD, mapFind?, hp, hpj] using ih

/-- C9: `recordSuccess("Please fix the login bug quickly", "some context")`
increments the pattern counter of exactly the keywords please, login and
quickly: extraction lowercases the prompt, splits on whitespace, drops the
length-3 tokens fix, the and bug (the being a stop word as well) and keeps
at most 5 tokens; every other counter in the pattern map is unchanged. -/
theorem claim_C9_keyword_extraction :
    extractKeywords "Please fix the login bug quickly" = ["please", "login", "quickly"]
    ∧ ∀ (st : LearnState) (k : String),
        mapGetD (recordSuccess "Please fix the login bug quickly" "some context" st).promptPatterns k
          = (if k = "please" ∨ k = "login" ∨ k = "quickly"
             then mapGetD st.promptPatterns k + 1 else mapGetD st.promptPatterns k) := by
  have hkw : extractKeywords "Please fix the login bug quickly"
      = ["please", "login", "quickly"] := by decide
  refine ⟨hkw, fun st k => ?_⟩
  have hpp : (recordSuccess "Please fix the login bug quickly" "some context" st).promptPatterns
      = mapSet (mapSet (mapSet st.promptPatterns "please" (mapGetD st.promptPatterns "please" + 1))
          "login" (mapGetD (mapSet st.promptPatterns "please"
            (mapGetD st.promptPatterns "please" + 1)) "login" + 1))
        "quickly" (mapGetD (mapSet (mapSet st.promptPatterns "please"
            (mapGetD st.promptPatterns "please" + 1)) "login"
              (mapGetD (mapSet st.promptPatterns "please"
                (mapGetD st.promptPatterns "please" + 1)) "login" + 1)) "quickly" + 1) := by
    unfold recordSuccess
    rw [hkw]
    rfl
  rw [hpp]
  by_cases h3 : k = "quickly"
  · subst h3
    simp [mapGetD_mapSet_self, mapGetD_mapSet_ne]
  · by_cases h2 : k = "login"
    · subst h2
      simp [mapGetD_mapSet_self, mapGetD_mapSet_ne]
    · by_cases h1 : k = "please"
      · subst h1
        simp [mapGetD_mapSet_self, mapGetD_mapSet_ne]
      · simp [mapGetD_mapSet_ne, h1, h2, h3]

/-- C10 (amended): `getSuggestions` returns exactly 2 suggestions in the
fix/debug, implement/create, optimize/improve and generic branches, but
exactly 1 in the explain branch (intent containing "explain" and none of
the six other trigger substrings); the branch is chosen by substring
matching on the intent, and the context never changes the count. -/
theorem claim_C10_suggestion_count (st : LearnState) (ctx intent : String) :
    (getSuggestions st ctx intent).length =
      if jsIncludes intent "fix" = false ∧ jsIncludes intent "debug" = false
          ∧ jsIncludes intent "implement" = false ∧ jsIncludes intent "create" = false
          ∧ jsIncludes intent "optimize" = false ∧ jsIncludes intent "improve" = false
          ∧ jsIncludes intent "explain" = true
      then 1 else 2 := by
  cases hf : jsIncludes intent "fix" <;> cases hd : jsIncludes intent "debug" <;>
    cases hi : jsIncludes intent "implement" <;> cases hc : jsIncludes intent "create" <;>
    cases ho : jsIncludes intent "optimize" <;> cases hm : jsIncludes intent "improve" <;>
    cases he : jsIncludes intent "explain" <;>
    simp [getSuggestions, hf, hd, hi, hc, ho, hm, he]

/-- C10 counterexample to the claim as stated: the explain branch of
`getSuggestions` pushes a single suggestion, so the returned list has
length 1, not 2. -/
theorem claim_C10_counterexample :
    (getSuggestions initialLearnState "some context" "explain").length = 1
    ∧ (getSuggestions initialLearnState "some context" "explain").length ≠ 2 := by
  decide
